import Mathlib

/-!
# Verification of the vnstock collector scripts

Shallow embedding of the orchestration logic of the collector scripts
(`scripts/collect_company_extra.py`, `collect_trading_detail.py`,
`collect_intraday.py`, `collect_macro.py`, `collect_insights.py`).

Modelling conventions:
* A pandas `DataFrame` is a list of rows, each row an association list from
  column name to a cell value, together with a frame-level column list.
  A missing key in a row models a NaN cell.
* A CSV file on disk is modelled as the table that was written to it plus a
  modification time (`Nat`); reading the file back returns that table.
* Thread-pool draining (`as_completed`) is modelled by quantifying over the
  completion order of the submitted futures.
* The vendor SDK is an opaque parameter: each per-symbol fetch is a value of
  `FetchOutcome` (returned a table, returned `None`, or raised).
-/

namespace VnstockCollect

/-- A cell value of a vendor-returned table (numeric or textual). -/
inductive Value where
  | int (n : Int)
  | str (s : String)
deriving DecidableEq, Repr

/-- A table row: association list from column name to cell value.
A column absent from a row models a NaN cell of that row. -/
abbrev Row := List (String × Value)

/-- A pandas DataFrame: frame-level column list plus rows. -/
structure DataFrame where
  columns : List String
  rows : List Row
deriving DecidableEq, Repr

/-- `df.empty` in pandas (for the frames occurring here): no rows. -/
def DataFrame.isEmptyDF (df : DataFrame) : Bool :=
  df.rows.isEmpty

/-- Column-union helper: keep the first occurrence of each column name,
in order of first appearance (pandas `concat` column behaviour). -/
def dedupFirstAux (seen : List String) : List String → List String
  | [] => []
  | c :: cs =>
    if seen.contains c then dedupFirstAux seen cs
    else c :: dedupFirstAux (c :: seen) cs

def dedupFirst (cs : List String) : List String :=
  dedupFirstAux [] cs

/-- `pd.concat(dfs, ignore_index=True)`: row-wise union; the column set is
the union of all tables' columns, cells missing for tables lacking a column. -/
def concatDF (dfs : List DataFrame) : DataFrame :=
  { columns := dedupFirst ((dfs.map DataFrame.columns).flatten)
  , rows := (dfs.map DataFrame.rows).flatten }

/-- `df["symbol"] = sym` when `"symbol"` is not among the columns:
appends the column and sets the value on every row. -/
def tagSymbol (df : DataFrame) (sym : String) : DataFrame :=
  { columns := df.columns ++ ["symbol"]
  , rows := df.rows.map (fun r => r ++ [("symbol", Value.str sym)]) }

/-- Outcome of one per-symbol fetch call (`future.result()`):
the vendor function returned a table, returned `None`, or raised. -/
inductive FetchOutcome where
  | ok (df : DataFrame)
  | noneResult
  | raise
deriving DecidableEq, Repr

/-- Did the fetch raise? (`except Exception:` branch). -/
def FetchOutcome.isRaise : FetchOutcome → Bool
  | .raise => true
  | _ => false

/-- Is the fetch outcome `None` or an empty table
(the `df is not None and not df.empty` test failing without raising)? -/
def FetchOutcome.isEmptyResult : FetchOutcome → Bool
  | .ok df => df.isEmptyDF
  | .noneResult => true
  | .raise => false

-- ============================================================
-- File-system model (CSV files with modification times)
-- ============================================================

/-- A CSV file on disk: the table last written to it and its mtime. -/
structure FileInfo where
  content : DataFrame
  mtime : Nat
deriving DecidableEq, Repr

/-- The file system: association list from path to file. -/
abbrev FS := List (String × FileInfo)

/-- `df.to_csv(path)`: replace (or create) the file at `path`. -/
def setFile (fs : FS) (path : String) (fi : FileInfo) : FS :=
  (path, fi) :: fs.filter (fun q => q.1 ≠ path)

/-- Modelled from the spec: `utils.is_file_fresh` (the `utils` module is not
under `src/`; only its import sites are).  Per the spec (§4.2): returns
false if the file does not exist; returns true iff the file's last-modified
timestamp is within the allowed age, i.e. at or after the start of the
current freshness window (`minMtime`); only metadata is inspected. -/
def is_file_fresh (fs : FS) (path : String) (minMtime : Nat) : Bool :=
  match fs.lookup path with
  | none => false
  | some fi => minMtime ≤ fi.mtime

-- ============================================================
-- Generic concurrent batch fetcher  (_collect_concurrent in
-- collect_company_extra.py and collect_trading_detail.py)
-- ============================================================

/-- Mutable state of the drain loop of `_collect_concurrent`:
the `all_data` accumulator and the `success` / `errors` counters. -/
structure Batch where
  allData : List DataFrame
  success : Nat
  errors : Nat
deriving DecidableEq, Repr

/-- One iteration of the `for future in as_completed(futures)` loop of
`_collect_concurrent`: on a raise, count an error; otherwise count a
success, and if the table is non-empty append it to `all_data`, first
tagging it with its symbol when `add_symbol_col` is set and the table has
no `symbol` column. -/
def collectStep (addCol : Bool) (fetch : String → FetchOutcome)
    (st : Batch) (sym : String) : Batch :=
  match fetch sym with
  | .raise => { st with errors := st.errors + 1 }
  | .noneResult => { st with success := st.success + 1 }
  | .ok df =>
    if df.isEmptyDF then
      { st with success := st.success + 1 }
    else
      let df' := if addCol && !df.columns.contains "symbol" then tagSymbol df sym else df
      { st with allData := st.allData ++ [df'], success := st.success + 1 }

/-- Drain all futures in completion order `order` (every submitted future
completes and is processed exactly once). -/
def drainFrom (addCol : Bool) (fetch : String → FetchOutcome)
    (st : Batch) : List String → Batch
  | [] => st
  | s :: rest => drainFrom addCol fetch (collectStep addCol fetch st s) rest

/-- The whole drain loop of `_collect_concurrent`, from the empty state. -/
def drainBatch (addCol : Bool) (fetch : String → FetchOutcome)
    (order : List String) : Batch :=
  drainFrom addCol fetch ⟨[], 0, 0⟩ order

/-- The table collected from one completed fetch, if any:
`None`/raise/empty yield nothing; a non-empty table is appended (tagged). -/
def collectedOne (addCol : Bool) (fetch : String → FetchOutcome)
    (sym : String) : Option DataFrame :=
  match fetch sym with
  | .ok df =>
    if df.isEmptyDF then none
    else some (if addCol && !df.columns.contains "symbol" then tagSymbol df sym else df)
  | _ => none

/-- Result of one `_collect_concurrent` call: final file system, number of
per-symbol fetch calls issued, returned boolean, final counters. -/
structure CollectResult where
  fs : FS
  fetchCalls : Nat
  ret : Bool
  success : Nat
  errors : Nat
deriving DecidableEq, Repr

/-- `_collect_concurrent(label, fetch_func, symbols, csv_path)`:
short-circuit (returning `True`) when the destination is fresh; otherwise
submit every symbol, drain in completion order `order`, write the
concatenated table iff `all_data` is non-empty, and return `success > 0`. -/
def collect_concurrent (addCol : Bool) (fetch : String → FetchOutcome)
    (order : List String) (csvPath : String) (fs : FS)
    (minMtime now : Nat) : CollectResult :=
  if is_file_fresh fs csvPath minMtime then
    { fs := fs, fetchCalls := 0, ret := true, success := 0, errors := 0 }
  else
    let b := drainBatch addCol fetch order
    let fs' :=
      if b.allData.isEmpty then fs
      else setFile fs csvPath { content := concatDF b.allData, mtime := now }
    { fs := fs', fetchCalls := order.length, ret := b.success > 0
    , success := b.success, errors := b.errors }

-- ============================================================
-- Drain-loop lemmas
-- ============================================================

theorem drainFrom_success (addCol : Bool) (fetch : String → FetchOutcome) :
    ∀ (order : List String) (st : Batch),
      (drainFrom addCol fetch st order).success
        = st.success + (order.filter (fun s => !(fetch s).isRaise)).length := by
  intro order
  induction order with
  | nil => intro st; simp [drainFrom]
  | cons s rest ih =>
    intro st
    simp only [drainFrom, List.filter_cons]
    rw [ih]
    cases h : fetch s with
    | ok df =>
      simp [collectStep, h, FetchOutcome.isRaise]
      cases hdf : df.isEmptyDF <;> simp [hdf] <;> omega
    | noneResult => simp [collectStep, h, FetchOutcome.isRaise]; omega
    | raise => simp [collectStep, h, FetchOutcome.isRaise]

theorem drainFrom_errors (addCol : Bool) (fetch : String → FetchOutcome) :
    ∀ (order : List String) (st : Batch),
      (drainFrom addCol fetch st order).errors
        = st.errors + (order.filter (fun s => (fetch s).isRaise)).length := by
  intro order
  induction order with
  | nil => intro st; simp [drainFrom]
  | cons s rest ih =>
    intro st
    simp only [drainFrom, List.filter_cons]
    rw [ih]
    cases h : fetch s with
    | ok df =>
      simp [collectStep, h, FetchOutcome.isRaise]
      cases hdf : df.isEmptyDF <;> simp [hdf]
    | noneResult => simp [collectStep, h, FetchOutcome.isRaise]
    | raise => simp [collectStep, h, FetchOutcome.isRaise]; omega

theorem drainFrom_allData (addCol : Bool) (fetch : String → FetchOutcome) :
    ∀ (order : List String) (st : Batch),
      (drainFrom addCol fetch st order).allData
        = st.allData ++ order.filterMap (collectedOne addCol fetch) := by
  intro order
  induction order with
  | nil => intro st; simp [drainFrom]
  | cons s rest ih =>
    intro st
    simp only [drainFrom, List.filterMap_cons]
    rw [ih]
    cases h : fetch s with
    | ok df =>
      simp only [collectStep, h, collectedOne]
      cases hdf : df.isEmptyDF <;> simp [hdf]
    | noneResult => simp [collectStep, h, collectedOne]
    | raise => simp [collectStep, h, collectedOne]

/-- Adding up the two filtered lengths gives the whole length. -/
theorem length_filter_not_add_length_filter {α : Type} (p : α → Bool) (l : List α) :
    (l.filter (fun a => !p a)).length + (l.filter p).length = l.length := by
  induction l with
  | nil => simp
  | cons a rest ih =>
    cases h : p a <;> simp [List.filter_cons, h] <;> omega

/-- Writing a file makes it the one found at its path. -/
theorem lookup_setFile (fs : FS) (path : String) (fi : FileInfo) :
    (setFile fs path fi).lookup path = some fi := by
  simp [setFile, List.lookup_cons]

/-- Looking up a key appended at the end of a row that lacks it. -/
theorem lookup_append_single {r : Row} {c : String} {v : Value}
    (h : r.lookup c = none) : (r ++ [(c, v)]).lookup c = some v := by
  induction r with
  | nil => simp [List.lookup]
  | cons p rest ih =>
    obtain ⟨k, w⟩ := p
    rw [List.lookup_cons] at h
    rw [List.cons_append, List.lookup_cons]
    revert h
    cases hck : c == k with
    | true => intro h; exact Option.noConfusion h
    | false => intro h; exact ih h

/-- Rows of a member table are rows of the concatenated table. -/
theorem mem_rows_concatDF {dfs : List DataFrame} {df : DataFrame}
    (hdf : df ∈ dfs) {r : Row} (hr : r ∈ df.rows) :
    r ∈ (concatDF dfs).rows := by
  simp only [concatDF, List.mem_flatten, List.mem_map]
  exact ⟨df.rows, ⟨df, hdf, rfl⟩, hr⟩

-- ============================================================
-- C1 — return value / success counting of _collect_concurrent
-- ============================================================

/-- **C1, counterexample.** The claim states that when every per-symbol
fetch completes without raising but returns an empty table, the operation
reports zero successes and returns false.  On the code, a fetch counts as a
success whenever it does not raise: with one symbol whose fetch returns an
empty table (destination not fresh), `_collect_concurrent` reports
`success = 1` and returns `True`. -/
theorem c1_counterexample :
    (collect_concurrent true (fun _ => .ok ⟨[], []⟩) ["AAA"]
        "company_reports.csv" [] 0 5).ret = true ∧
    (collect_concurrent true (fun _ => .ok ⟨[], []⟩) ["AAA"]
        "company_reports.csv" [] 0 5).success = 1 := by
  constructor <;> rfl

/-- **C1, amended.** When the destination is not fresh, the returned boolean
of `_collect_concurrent` is true iff at least one fetch completed without
raising (even if its table was empty), and the reported success count is the
number of non-raising fetches. -/
theorem c1_ret_iff_some_nonraising (addCol : Bool)
    (fetch : String → FetchOutcome) (order : List String) (path : String)
    (fs : FS) (minMtime now : Nat)
    (hfresh : is_file_fresh fs path minMtime = false) :
    (collect_concurrent addCol fetch order path fs minMtime now).ret
        = order.any (fun s => !(fetch s).isRaise) ∧
    (collect_concurrent addCol fetch order path fs minMtime now).success
        = (order.filter (fun s => !(fetch s).isRaise)).length := by
  have hsucc : (drainBatch addCol fetch order).success
      = (order.filter (fun s => !(fetch s).isRaise)).length := by
    rw [drainBatch, drainFrom_success]
    simp
  constructor
  · simp only [collect_concurrent, hfresh, Bool.false_eq_true, if_false]
    cases hany : order.any (fun s => !(fetch s).isRaise) with
    | false =>
      rw [List.any_eq_false] at hany
      have hfil : order.filter (fun s => !(fetch s).isRaise) = [] :=
        List.filter_eq_nil_iff.mpr (by intro a ha; simpa using hany a ha)
      simp [hsucc, hfil]
    | true =>
      rw [List.any_eq_true] at hany
      obtain ⟨a, ha, hpa⟩ := hany
      have : a ∈ order.filter (fun s => !(fetch s).isRaise) :=
        List.mem_filter.mpr ⟨ha, hpa⟩
      have hpos : 0 < (order.filter (fun s => !(fetch s).isRaise)).length :=
        List.length_pos.mpr (List.ne_nil_of_mem this)
      simp [hsucc, hpos]
  · simp only [collect_concurrent, hfresh, Bool.false_eq_true, if_false]
    rw [drainBatch, drainFrom_success]
    simp

/-- Witness for `c1_ret_iff_some_nonraising` at a concrete input. -/
theorem c1_witness :
    is_file_fresh [] "p.csv" 0 = false ∧
    ((collect_concurrent true
        (fun _ => .ok ⟨["v"], [[("v", Value.int 1)]]⟩)
        ["AAA"] "p.csv" [] 0 5).ret
      = (["AAA"].any fun s =>
          !((fun (_ : String) =>
              FetchOutcome.ok ⟨["v"], [[("v", Value.int 1)]]⟩) s).isRaise) ∧
     (collect_concurrent true
        (fun _ => .ok ⟨["v"], [[("v", Value.int 1)]]⟩)
        ["AAA"] "p.csv" [] 0 5).success
      = (["AAA"].filter (fun s =>
          !((fun (_ : String) =>
              FetchOutcome.ok ⟨["v"], [[("v", Value.int 1)]]⟩) s).isRaise)).length) :=
  ⟨rfl, c1_ret_iff_some_nonraising true
      (fun _ => .ok ⟨["v"], [[("v", Value.int 1)]]⟩)
      ["AAA"] "p.csv" [] 0 5 rfl⟩

-- ============================================================
-- C9 — success + errors = number of submitted symbols
-- ============================================================

/-- **C9.** After all futures of `_collect_concurrent` are drained,
`success + errors` equals the number of submitted symbols: every completed
fetch increments exactly one of the two counters, exactly once. -/
theorem c9_counters_partition (addCol : Bool)
    (fetch : String → FetchOutcome) (order : List String) :
    (drainBatch addCol fetch order).success
      + (drainBatch addCol fetch order).errors = order.length := by
  rw [drainBatch, drainFrom_success, drainFrom_errors]
  simpa using length_filter_not_add_length_filter (fun s => (fetch s).isRaise) order

-- ============================================================
-- C8 — all-empty batch writes nothing
-- ============================================================

/-- **C8.** If every symbol's fetch returns an empty table, returns `None`,
or raises, then `_collect_concurrent` writes no output file: the file system
(in particular the destination path's contents) is exactly as before. -/
theorem c8_no_write_when_all_empty (addCol : Bool)
    (fetch : String → FetchOutcome) (order : List String) (path : String)
    (fs : FS) (minMtime now : Nat)
    (hemp : ∀ s ∈ order,
      (fetch s).isRaise = true ∨ (fetch s).isEmptyResult = true) :
    (collect_concurrent addCol fetch order path fs minMtime now).fs = fs := by
  rw [collect_concurrent]
  by_cases hfresh : is_file_fresh fs path minMtime = true
  · simp [hfresh]
  · simp only [Bool.not_eq_true] at hfresh
    simp only [hfresh, Bool.false_eq_true, if_false]
    have hAll : (drainBatch addCol fetch order).allData = [] := by
      rw [drainBatch, drainFrom_allData]
      simp only [List.nil_append]
      apply List.filterMap_eq_nil_iff.mpr
      intro s hs
      rcases hemp s hs with h | h
      · cases hf : fetch s <;> simp [hf, FetchOutcome.isRaise, collectedOne] at h ⊢
      · cases hf : fetch s <;>
          simp [hf, FetchOutcome.isEmptyResult, collectedOne,
            DataFrame.isEmptyDF] at h ⊢
        simp [h]
    simp [hAll]

/-- Witness for `c8_no_write_when_all_empty` at a concrete input. -/
theorem c8_witness :
    (∀ s ∈ ["AAA", "BBB"],
      ((fun t => if t = "AAA" then FetchOutcome.ok ⟨["v"], []⟩
                 else FetchOutcome.raise) s).isRaise = true ∨
      ((fun t => if t = "AAA" then FetchOutcome.ok ⟨["v"], []⟩
                 else FetchOutcome.raise) s).isEmptyResult = true) ∧
    (collect_concurrent true
      (fun t => if t = "AAA" then FetchOutcome.ok ⟨["v"], []⟩
                else FetchOutcome.raise)
      ["AAA", "BBB"] "out.csv"
      [("out.csv", ⟨⟨["v"], [[("v", Value.int 7)]]⟩, 1⟩)] 2 9).fs
      = [("out.csv", ⟨⟨["v"], [[("v", Value.int 7)]]⟩, 1⟩)] :=
  ⟨by decide,
   c8_no_write_when_all_empty true _ ["AAA", "BBB"] "out.csv"
     [("out.csv", ⟨⟨["v"], [[("v", Value.int 7)]]⟩, 1⟩)] 2 9 (by decide)⟩

-- ============================================================
-- C2 — three-symbol scenario
-- ============================================================

/-- The fetch stub of the spec's scenario: a one-row table with `value=1`
for `"AAA"`, an empty table for `"BBB"`, a raise for `"CCC"`. -/
def scenarioFetch : String → FetchOutcome := fun s =>
  if s = "AAA" then .ok ⟨["value"], [[("value", Value.int 1)]]⟩
  else if s = "BBB" then .ok ⟨["value"], []⟩
  else .raise

/-- **C2.** On symbols `["AAA","BBB","CCC"]` with the scenario stub
(any completion order, destination not present): the written output holds
exactly one row (`value=1`, `symbol="AAA"`), the success counter is 2
(a non-raising empty fetch still counts), and the error counter is 1. -/
theorem c2_scenario (order : List String)
    (h : order.Perm ["AAA", "BBB", "CCC"]) :
    (collect_concurrent true scenarioFetch order "p.csv" [] 0 5).success = 2 ∧
    (collect_concurrent true scenarioFetch order "p.csv" [] 0 5).errors = 1 ∧
    (collect_concurrent true scenarioFetch order "p.csv" [] 0 5).fs.lookup "p.csv"
      = some ⟨⟨["value", "symbol"],
          [[("value", Value.int 1), ("symbol", Value.str "AAA")]]⟩, 5⟩ := by
  have hfresh : is_file_fresh [] "p.csv" 0 = false := rfl
  have hAll : (drainBatch true scenarioFetch order).allData
      = [⟨["value", "symbol"],
          [[("value", Value.int 1), ("symbol", Value.str "AAA")]]⟩] := by
    rw [drainBatch, drainFrom_allData]
    simp only [List.nil_append]
    have hp := h.filterMap (collectedOne true scenarioFetch)
    have hval : List.filterMap (collectedOne true scenarioFetch)
        ["AAA", "BBB", "CCC"]
        = [⟨["value", "symbol"],
            [[("value", Value.int 1), ("symbol", Value.str "AAA")]]⟩] := by
      decide
    rw [hval] at hp
    exact List.perm_singleton.mp hp
  have hsucc : (drainBatch true scenarioFetch order).success = 2 := by
    rw [drainBatch, drainFrom_success]
    have := (h.filter (fun s => !(scenarioFetch s).isRaise)).length_eq
    simp only [this]
    decide
  have herr : (drainBatch true scenarioFetch order).errors = 1 := by
    rw [drainBatch, drainFrom_errors]
    have := (h.filter (fun s => (scenarioFetch s).isRaise)).length_eq
    simp only [this]
    decide
  refine ⟨?_, ?_, ?_⟩
  · simp only [collect_concurrent, hfresh, Bool.false_eq_true, if_false]
    exact hsucc
  · simp only [collect_concurrent, hfresh, Bool.false_eq_true, if_false]
    exact herr
  · simp only [collect_concurrent, hfresh, Bool.false_eq_true, if_false]
    rw [hAll]
    simp only [List.isEmpty_cons, Bool.false_eq_true, if_false]
    rw [lookup_setFile]
    rfl

/-- Witness for `c2_scenario` at the submission order itself. -/
theorem c2_witness :
    (["AAA", "BBB", "CCC"] : List String).Perm ["AAA", "BBB", "CCC"] ∧
    ((collect_concurrent true scenarioFetch ["AAA", "BBB", "CCC"]
        "p.csv" [] 0 5).success = 2 ∧
     (collect_concurrent true scenarioFetch ["AAA", "BBB", "CCC"]
        "p.csv" [] 0 5).errors = 1 ∧
     (collect_concurrent true scenarioFetch ["AAA", "BBB", "CCC"]
        "p.csv" [] 0 5).fs.lookup "p.csv"
       = some ⟨⟨["value", "symbol"],
           [[("value", Value.int 1), ("symbol", Value.str "AAA")]]⟩, 5⟩) :=
  ⟨List.Perm.refl _, c2_scenario ["AAA", "BBB", "CCC"] (List.Perm.refl _)⟩

-- ============================================================
-- C6 — partial-failure isolation
-- ============================================================

/-- **C6.** If exactly one symbol's fetch raises (it occurs once in the
completion order) and every other symbol's fetch returns a non-empty table
without a `symbol` column, then `_collect_concurrent` (destination not
fresh): counts exactly one error, drains every fetch
(`success + errors = N`), and the written output table contains a row
tagged with each of the other `N−1` symbols. -/
theorem c6_partial_failure_isolation
    (fetch : String → FetchOutcome) (order : List String) (x : String)
    (path : String) (fs : FS) (minMtime now : Nat)
    (hfresh : is_file_fresh fs path minMtime = false)
    (hx : x ∈ order) (hcount : order.count x = 1)
    (hraise : fetch x = .raise)
    (hok : ∀ s ∈ order, s ≠ x → ∃ df, fetch s = .ok df ∧ df.rows ≠ [] ∧
      df.columns.contains "symbol" = false ∧
      ∀ r ∈ df.rows, r.lookup "symbol" = none) :
    (collect_concurrent true fetch order path fs minMtime now).errors = 1 ∧
    (collect_concurrent true fetch order path fs minMtime now).success
      + (collect_concurrent true fetch order path fs minMtime now).errors
      = order.length ∧
    ∀ s ∈ order, s ≠ x →
      ∃ fi, (collect_concurrent true fetch order path fs minMtime now).fs.lookup path
              = some fi ∧
        ∃ r ∈ fi.content.rows, r.lookup "symbol" = some (Value.str s) := by
  have hraise_iff : ∀ s ∈ order, (fetch s).isRaise = (s == x) := by
    intro s hs
    by_cases hsx : s = x
    · subst hsx; rw [hraise]; simp [FetchOutcome.isRaise]
    · obtain ⟨df, hdf, -, -, -⟩ := hok s hs hsx
      rw [hdf]
      simp [FetchOutcome.isRaise, hsx]
  have herr : (drainBatch true fetch order).errors = 1 := by
    rw [drainBatch, drainFrom_errors]
    have hlen : (List.filter (fun s => (fetch s).isRaise) order).length = 1 := by
      rw [List.filter_congr hraise_iff, ← List.countP_eq_length_filter]
      simpa [List.count] using hcount
    simp [hlen]
  have hsum : (drainBatch true fetch order).success
      + (drainBatch true fetch order).errors = order.length := by
    rw [drainBatch, drainFrom_success, drainFrom_errors]
    simpa using
      length_filter_not_add_length_filter (fun s => (fetch s).isRaise) order
  simp only [collect_concurrent, hfresh, Bool.false_eq_true, if_false]
  refine ⟨herr, hsum, ?_⟩
  intro s hs hsx
  obtain ⟨df, hdf, hrows, hcols, hnosym⟩ := hok s hs hsx
  have hemp : df.isEmptyDF = false := by
    rw [DataFrame.isEmptyDF]
    cases hr : df.rows with
    | nil => exact absurd hr hrows
    | cons a l => rfl
  have hcollect : collectedOne true fetch s = some (tagSymbol df s) := by
    simp only [collectedOne, hdf]
    simp only [hemp, hcols, Bool.false_eq_true, if_false, Bool.not_false,
      Bool.true_and, if_true]
  have hmem : tagSymbol df s ∈ (drainBatch true fetch order).allData := by
    rw [drainBatch, drainFrom_allData]
    simp only [List.nil_append]
    exact List.mem_filterMap.mpr ⟨s, hs, hcollect⟩
  have hne : (drainBatch true fetch order).allData.isEmpty = false := by
    cases hl : (drainBatch true fetch order).allData with
    | nil => rw [hl] at hmem; exact absurd hmem (List.not_mem_nil _)
    | cons a l => rfl
  simp only [hne, Bool.false_eq_true, if_false]
  refine ⟨⟨concatDF (drainBatch true fetch order).allData, now⟩,
    lookup_setFile _ _ _, ?_⟩
  obtain ⟨r0, hr0⟩ : ∃ r0, r0 ∈ df.rows := by
    cases hr : df.rows with
    | nil => exact absurd hr hrows
    | cons a l => exact ⟨a, hr ▸ List.mem_cons_self a l⟩
  refine ⟨r0 ++ [("symbol", Value.str s)], ?_, ?_⟩
  · have htag : r0 ++ [("symbol", Value.str s)] ∈ (tagSymbol df s).rows := by
      simp only [tagSymbol]
      exact List.mem_map.mpr ⟨r0, hr0, rfl⟩
    exact mem_rows_concatDF hmem htag
  · exact lookup_append_single (hnosym r0 hr0)

/-- Witness for `c6_partial_failure_isolation` at a concrete input. -/
theorem c6_witness :
    ∃ fi, (collect_concurrent true
        (fun s => if s = "AAA"
          then FetchOutcome.ok ⟨["v"], [[("v", Value.int 2)]]⟩
          else FetchOutcome.raise)
        ["AAA", "CCC"] "out.csv" [] 0 9).fs.lookup "out.csv" = some fi ∧
      ∃ r ∈ fi.content.rows, r.lookup "symbol" = some (Value.str "AAA") := by
  have h := c6_partial_failure_isolation
    (fun s => if s = "AAA"
      then FetchOutcome.ok ⟨["v"], [[("v", Value.int 2)]]⟩
      else FetchOutcome.raise)
    ["AAA", "CCC"] "CCC" "out.csv" [] 0 9
    rfl (by decide) (by decide) rfl
    (by
      intro s hs hsx
      have : s = "AAA" ∨ s = "CCC" := by simpa using hs
      rcases this with h1 | h1
      · subst h1
        exact ⟨⟨["v"], [[("v", Value.int 2)]]⟩, rfl, by decide, by decide,
          by decide⟩
      · exact absurd h1 hsx)
  exact h.2.2 "AAA" (by decide) (by decide)

-- ============================================================
-- collect_reports (collect_company_extra.py) with its listing call
-- ============================================================

/-- Observable result of one `collect_reports` invocation: final file
system, number of listing calls and per-symbol fetch calls issued to the
vendor, and the returned boolean. -/
structure ReportsRun where
  fs : FS
  listingCalls : Nat
  fetchCalls : Nat
  ret : Bool
deriving DecidableEq, Repr

/-- `collect_reports(top_n)`: first resolves symbols through
`_get_symbols` — one vendor listing call (`symbols_by_exchange`), issued
unconditionally, before `_collect_concurrent` performs its freshness
check — then runs the batch on `data/company_reports.csv`. -/
def collect_reports_run (listing : List String) (topn : Nat)
    (fetch : String → FetchOutcome) (fs : FS) (minMtime now : Nat) :
    ReportsRun :=
  let symbols := listing.take topn
  let c := collect_concurrent true fetch symbols "company_reports.csv" fs
      minMtime now
  { fs := c.fs, listingCalls := 1, fetchCalls := c.fetchCalls, ret := c.ret }

/-- `_get_symbols` of collect_company_extra.py (identical in
collect_trading_detail.py and collect_finance_extra.py): the listing call
has no try/except, so a listing failure propagates to the caller. -/
def get_symbols_company_extra (listing : Except String (List String))
    (topn : Nat) : Except String (List String) :=
  match listing with
  | .error e => .error e
  | .ok syms => .ok (syms.take topn)

/-- `collect_reports` with a fallible listing call: `_get_symbols` is not
guarded inside `collect_reports`, and `main()` does not guard the
collector either, so a listing error escapes the top-level invocation. -/
def collect_reports_try (listing : Except String (List String))
    (topn : Nat) (fetch : String → FetchOutcome) (fs : FS)
    (minMtime now : Nat) : Except String ReportsRun :=
  match get_symbols_company_extra listing topn with
  | .error e => .error e
  | .ok syms =>
    let c := collect_concurrent true fetch syms "company_reports.csv" fs
        minMtime now
    .ok { fs := c.fs, listingCalls := 1, fetchCalls := c.fetchCalls
        , ret := c.ret }

/-- The hard-coded fallback list of collect_insights.collect_market_pe_pb. -/
def INSIGHTS_DEFAULT_SYMBOLS : List String :=
  ["VNM", "VCB", "VHM", "HPG", "FPT", "VIC", "MSN", "MWG",
   "TCB", "CTG", "BID", "MBB", "ACB", "VPB", "SSI", "GAS",
   "PLX", "SAB", "VRE", "POW", "TPB", "HDB", "STB", "PDR",
   "BCM", "GVR", "NVL", "VJC", "BVH", "KDH"]

/-- Symbol resolution of `collect_market_pe_pb` (collect_insights.py):
the VN30 listing call is inside try/except; on failure the hard-coded
default list is used; on success the `symbol` column is read if present,
otherwise the list is empty. -/
def resolve_vn30_insights (vn30 : Except String DataFrame) : List String :=
  match vn30 with
  | .error _ => INSIGHTS_DEFAULT_SYMBOLS
  | .ok df =>
    if df.columns.contains "symbol" then
      df.rows.filterMap (fun r =>
        match r.lookup "symbol" with
        | some (.str s) => some s
        | _ => none)
    else []

-- ============================================================
-- C3 — second invocation within the freshness window
-- ============================================================

/-- **C3, counterexample.** The claim states a second invocation within the
freshness window performs zero additional vendor calls, including the
symbol-listing call.  On the code, `collect_reports` resolves the symbol
list through the vendor listing endpoint before `_collect_concurrent`
checks freshness: a second invocation right after a successful first one
still issues one listing call (though zero per-symbol fetch calls, and it
leaves every output file byte-identical). -/
theorem c3_counterexample :
    (collect_reports_run ["AAA"] 50
      (fun _ => .ok ⟨["v"], [[("v", Value.int 1)]]⟩)
      (collect_reports_run ["AAA"] 50
        (fun _ => .ok ⟨["v"], [[("v", Value.int 1)]]⟩) [] 5 10).fs
      5 10).listingCalls = 1 ∧
    (collect_reports_run ["AAA"] 50
      (fun _ => .ok ⟨["v"], [[("v", Value.int 1)]]⟩)
      (collect_reports_run ["AAA"] 50
        (fun _ => .ok ⟨["v"], [[("v", Value.int 1)]]⟩) [] 5 10).fs
      5 10).fetchCalls = 0 ∧
    (collect_reports_run ["AAA"] 50
      (fun _ => .ok ⟨["v"], [[("v", Value.int 1)]]⟩)
      (collect_reports_run ["AAA"] 50
        (fun _ => .ok ⟨["v"], [[("v", Value.int 1)]]⟩) [] 5 10).fs
      5 10).fs
    = (collect_reports_run ["AAA"] 50
        (fun _ => .ok ⟨["v"], [[("v", Value.int 1)]]⟩) [] 5 10).fs := by
  refine ⟨rfl, ?_, ?_⟩ <;> decide

/-- **C3, amended.** When the destination file is fresh, a `collect_reports`
invocation performs zero per-symbol fetch calls and leaves the file system
(hence every output file) unchanged — but it still performs its one
symbol-listing vendor call. -/
theorem c3_fresh_invocation (listing : List String) (topn : Nat)
    (fetch : String → FetchOutcome) (fs : FS) (minMtime now : Nat)
    (hfresh : is_file_fresh fs "company_reports.csv" minMtime = true) :
    (collect_reports_run listing topn fetch fs minMtime now).fetchCalls = 0 ∧
    (collect_reports_run listing topn fetch fs minMtime now).fs = fs ∧
    (collect_reports_run listing topn fetch fs minMtime now).listingCalls = 1 := by
  refine ⟨?_, ?_, rfl⟩ <;>
    simp [collect_reports_run, collect_concurrent, hfresh]

/-- Witness for `c3_fresh_invocation` at a concrete input. -/
theorem c3_witness :
    is_file_fresh [("company_reports.csv", ⟨⟨["v"], []⟩, 8⟩)]
      "company_reports.csv" 5 = true ∧
    ((collect_reports_run ["AAA"] 50 (fun _ => .raise)
        [("company_reports.csv", ⟨⟨["v"], []⟩, 8⟩)] 5 10).fetchCalls = 0 ∧
     (collect_reports_run ["AAA"] 50 (fun _ => .raise)
        [("company_reports.csv", ⟨⟨["v"], []⟩, 8⟩)] 5 10).fs
       = [("company_reports.csv", ⟨⟨["v"], []⟩, 8⟩)] ∧
     (collect_reports_run ["AAA"] 50 (fun _ => .raise)
        [("company_reports.csv", ⟨⟨["v"], []⟩, 8⟩)] 5 10).listingCalls = 1) :=
  ⟨by decide,
   c3_fresh_invocation ["AAA"] 50 (fun _ => .raise)
     [("company_reports.csv", ⟨⟨["v"], []⟩, 8⟩)] 5 10 (by decide)⟩

-- ============================================================
-- C7 — symbol-resolution failure handling
-- ============================================================

/-- **C7, counterexample.** The claim states every script catches a
symbol-listing failure so no exception escapes the top-level invocation.
In collect_company_extra.py, `_get_symbols` has no try/except and `main()`
none either: a listing failure escapes `collect_reports`. -/
theorem c7_counterexample :
    collect_reports_try (Except.error "listing down") 50 (fun _ => .raise)
      [] 0 5 = Except.error "listing down" := rfl

/-- **C7, amended.** Handling differs per script: collect_insights catches
the VN30 listing failure and falls back to its hard-coded default symbol
list, while collect_company_extra's `_get_symbols` (shared with
trading_detail and finance_extra) propagates any listing failure out of
the collector, hence out of the script's top-level invocation. -/
theorem c7_listing_failure_handling (e : String) (topn : Nat)
    (fetch : String → FetchOutcome) (fs : FS) (minMtime now : Nat) :
    collect_reports_try (Except.error e) topn fetch fs minMtime now
      = Except.error e ∧
    resolve_vn30_insights (Except.error e) = INSIGHTS_DEFAULT_SYMBOLS := by
  exact ⟨rfl, rfl⟩

-- ============================================================
-- _rate_limited_call and the _api_lock (all scripts)
-- ============================================================

/-- The observable actions of `_rate_limited_call`: acquiring/releasing
`_api_lock`, the limiter's `wait()`, and the vendor call `func()`. -/
inductive RLAct where
  | acquire
  | wait
  | release
  | call
deriving DecidableEq, Repr

/-- The body of `_rate_limited_call`, transcribed action by action and
identical in every script:
`with _api_lock: get_limiter().wait()` — acquire, wait, release — and
then `return func()` after the `with` block. -/
def rateLimitedCallBody : List RLAct :=
  [RLAct.acquire, RLAct.wait, RLAct.release, RLAct.call]

/-- Annotate each action of a straight-line body with the lock depth at
which it executes (an acquire executes at the depth it establishes, a
release below the depth it leaves). -/
def annotateDepth : Nat → List RLAct → List (RLAct × Nat)
  | _, [] => []
  | d, RLAct.acquire :: rest => (RLAct.acquire, d + 1) :: annotateDepth (d + 1) rest
  | d, RLAct.release :: rest => (RLAct.release, d - 1) :: annotateDepth (d - 1) rest
  | d, a :: rest => (a, d) :: annotateDepth d rest

/-- A schedule event: (worker-thread id, action). -/
abbrev TEvent := Nat × RLAct

/-- Validity of an interleaved schedule with respect to the single
mutual-exclusion lock `_api_lock`: the lock is acquired only when free and
released only by its owner. -/
def lockValid : Option Nat → List TEvent → Bool
  | _, [] => true
  | owner, (t, a) :: rest =>
    match a, owner with
    | RLAct.acquire, none => lockValid (some t) rest
    | RLAct.acquire, some _ => false
    | RLAct.release, some o => if o = t then lockValid none rest else false
    | RLAct.release, none => false
    | _, _ => lockValid owner rest

/-- The actions one thread performs in a schedule, in order. -/
def projThread (t : Nat) (es : List TEvent) : List RLAct :=
  (es.filter (fun e => e.1 == t)).map Prod.snd

/-- A schedule of two worker threads each running the full
`_rate_limited_call` body: both pass `wait()` first, then the two vendor
calls are issued back-to-back. -/
def burstSchedule : List TEvent :=
  [(0, RLAct.acquire), (0, RLAct.wait), (0, RLAct.release),
   (1, RLAct.acquire), (1, RLAct.wait), (1, RLAct.release),
   (0, RLAct.call), (1, RLAct.call)]

-- ============================================================
-- C5 — what the lock actually covers
-- ============================================================

/-- **C5, counterexample.** The claim states that at every call site both
the limiter's `wait()` and the subsequent vendor call `func()` execute
inside the shared lock.  In the code the `with _api_lock:` block covers
only `get_limiter().wait()`; `func()` runs after the block, at lock
depth 0. -/
theorem c5_counterexample :
    ¬ ∀ p ∈ annotateDepth 0 rateLimitedCallBody,
        (p.1 = RLAct.wait ∨ p.1 = RLAct.call) → 0 < p.2 := by
  decide

/-- **C5, amended.** In `_rate_limited_call` only the limiter's `wait()`
executes under `_api_lock`; the vendor call executes after the lock is
released (depth 0).  Consequently there is a lock-valid interleaving of
two worker threads in which both have passed `wait()` before either vendor
call is issued, and the two vendor calls occur back-to-back. -/
theorem c5_lock_covers_wait_only :
    (RLAct.wait, 1) ∈ annotateDepth 0 rateLimitedCallBody ∧
    (RLAct.call, 0) ∈ annotateDepth 0 rateLimitedCallBody ∧
    lockValid none burstSchedule = true ∧
    projThread 0 burstSchedule = rateLimitedCallBody ∧
    projThread 1 burstSchedule = rateLimitedCallBody ∧
    burstSchedule.drop 6 = [(0, RLAct.call), (1, RLAct.call)] := by
  decide

-- ============================================================
-- Sorting and de-duplication (pandas drop_duplicates / sort_values)
-- ============================================================

/-- Boolean order on cell values (ints by `≤`, strings lexicographic,
ints before strings), the cell comparison behind `sort_values`. -/
def valLe : Value → Value → Bool
  | .int a, .int b => a ≤ b
  | .str a, .str b => a ≤ b
  | .int _, .str _ => true
  | .str _, .int _ => false

/-- Order on optional cells: a missing cell sorts first. -/
def optValLe : Option Value → Option Value → Bool
  | none, _ => true
  | some _, none => false
  | some a, some b => valLe a b

/-- Strict version of `optValLe`. -/
def optValLt (a b : Option Value) : Bool :=
  optValLe a b && !optValLe b a

/-- `sort_values(c)` row comparison: compare the cells of column `c`. -/
def rowLeBy (c : String) (r₁ r₂ : Row) : Bool :=
  optValLe (r₁.lookup c) (r₂.lookup c)

theorem valLe_total (a b : Value) : (valLe a b || valLe b a) = true := by
  cases a with
  | int m =>
    cases b with
    | int n => simp [valLe]; omega
    | str t => simp [valLe]
  | str s =>
    cases b with
    | int n => simp [valLe]
    | str t =>
      simp only [valLe]
      rcases le_total s t with h | h
      · simp [h]
      · simp [h]

theorem valLe_trans {a b c : Value} (h₁ : valLe a b = true)
    (h₂ : valLe b c = true) : valLe a c = true := by
  cases a <;> cases b <;> cases c <;>
    simp [valLe] at h₁ h₂ ⊢ <;> first
    | omega
    | exact le_trans h₁ h₂

theorem optValLe_total (a b : Option Value) :
    (optValLe a b || optValLe b a) = true := by
  cases a with
  | none => rfl
  | some x =>
    cases b with
    | none => rfl
    | some y => simpa [optValLe] using valLe_total x y

theorem optValLe_trans {a b c : Option Value} (h₁ : optValLe a b = true)
    (h₂ : optValLe b c = true) : optValLe a c = true := by
  cases a with
  | none => rfl
  | some x =>
    cases b with
    | none => exact absurd h₁ (by simp [optValLe])
    | some y =>
      cases c with
      | none => exact absurd h₂ (by simp [optValLe])
      | some z => exact valLe_trans h₁ h₂

theorem rowLeBy_total (c : String) (r₁ r₂ : Row) :
    (rowLeBy c r₁ r₂ || rowLeBy c r₂ r₁) = true :=
  optValLe_total _ _

theorem rowLeBy_trans (c : String) {r₁ r₂ r₃ : Row}
    (h₁ : rowLeBy c r₁ r₂ = true) (h₂ : rowLeBy c r₂ r₃ = true) :
    rowLeBy c r₁ r₃ = true :=
  optValLe_trans h₁ h₂

/-- Stable insertion into a sorted list: the new element goes before the
first element it compares `le` to, so elements with equal keys keep their
original relative order (`sort_values` is modelled as a stable sort, which
is what pandas produces on the frames at hand). -/
def insertLe {α : Type} (le : α → α → Bool) (a : α) : List α → List α
  | [] => [a]
  | b :: bs => if le a b then a :: b :: bs else b :: insertLe le a bs

/-- Stable insertion sort (the model of `sort_values`). -/
def sortByLe {α : Type} (le : α → α → Bool) (l : List α) : List α :=
  l.foldr (insertLe le) []

theorem insertLe_perm {α : Type} (le : α → α → Bool) (a : α) :
    ∀ l : List α, (insertLe le a l).Perm (a :: l) := by
  intro l
  induction l with
  | nil => exact List.Perm.refl _
  | cons b bs ih =>
    rw [insertLe]
    by_cases h : le a b = true
    · rw [if_pos h]
    · rw [if_neg h]
      exact (ih.cons b).trans (List.Perm.swap a b bs)

theorem sortByLe_perm {α : Type} (le : α → α → Bool) :
    ∀ l : List α, (sortByLe le l).Perm l := by
  intro l
  induction l with
  | nil => exact List.Perm.refl _
  | cons a as ih =>
    have : sortByLe le (a :: as) = insertLe le a (sortByLe le as) := rfl
    rw [this]
    exact (insertLe_perm le a (sortByLe le as)).trans (ih.cons a)

theorem pairwise_insertLe {α : Type} (le : α → α → Bool)
    (htrans : ∀ x y z, le x y = true → le y z = true → le x z = true)
    (htotal : ∀ x y, (le x y || le y x) = true) (a : α) :
    ∀ l : List α, l.Pairwise (fun x y => le x y = true) →
      (insertLe le a l).Pairwise (fun x y => le x y = true) := by
  intro l
  induction l with
  | nil => intro _; simp [insertLe]
  | cons b bs ih =>
    intro hp
    rw [List.pairwise_cons] at hp
    obtain ⟨hb, hbs⟩ := hp
    rw [insertLe]
    by_cases h : le a b = true
    · rw [if_pos h]
      refine List.Pairwise.cons ?_ (List.pairwise_cons.mpr ⟨hb, hbs⟩)
      intro y hy
      rcases List.mem_cons.mp hy with h1 | h1
      · exact h1 ▸ h
      · exact htrans a b y h (hb y h1)
    · rw [if_neg h]
      refine List.Pairwise.cons ?_ (ih hbs)
      intro y hy
      have hy' : y ∈ a :: bs := ((insertLe_perm le a bs).mem_iff).mp hy
      rcases List.mem_cons.mp hy' with h1 | h1
      · rw [h1]
        have := htotal a b
        cases hab : le a b with
        | true => exact absurd hab h
        | false => simpa [hab] using this
      · exact hb y h1

theorem pairwise_sortByLe {α : Type} (le : α → α → Bool)
    (htrans : ∀ x y z, le x y = true → le y z = true → le x z = true)
    (htotal : ∀ x y, (le x y || le y x) = true) :
    ∀ l : List α, (sortByLe le l).Pairwise (fun x y => le x y = true) := by
  intro l
  induction l with
  | nil => simp [sortByLe]
  | cons a as ih =>
    have : sortByLe le (a :: as) = insertLe le a (sortByLe le as) := rfl
    rw [this]
    exact pairwise_insertLe le htrans htotal a _ ih

/-- `drop_duplicates(subset=key, keep="last")`: a row is kept iff no later
row has the same key; kept rows stay in their original relative order. -/
def dedupKeepLast {α κ : Type} [DecidableEq κ] (key : α → κ) :
    List α → List α
  | [] => []
  | r :: rs =>
    if rs.any (fun x => key x = key r) then dedupKeepLast key rs
    else r :: dedupKeepLast key rs

/-- `drop_duplicates(subset=key, keep="first")`. -/
def dedupKeepFirstAux {α κ : Type} [DecidableEq κ] (key : α → κ)
    (seen : List κ) : List α → List α
  | [] => []
  | r :: rs =>
    if seen.contains (key r) then dedupKeepFirstAux key seen rs
    else r :: dedupKeepFirstAux key (key r :: seen) rs

def dedupKeepFirst {α κ : Type} [DecidableEq κ] (key : α → κ)
    (l : List α) : List α :=
  dedupKeepFirstAux key [] l

theorem mem_dedupKeepLast {α κ : Type} [DecidableEq κ] {key : α → κ} :
    ∀ {l : List α} {r : α}, r ∈ dedupKeepLast key l → r ∈ l := by
  intro l
  induction l with
  | nil => intro r h; exact absurd h (List.not_mem_nil r)
  | cons a rs ih =>
    intro r h
    rw [dedupKeepLast] at h
    by_cases hany : rs.any (fun x => key x = key a) = true
    · rw [if_pos hany] at h
      exact List.mem_cons_of_mem a (ih h)
    · rw [if_neg hany] at h
      rcases List.mem_cons.mp h with h1 | h1
      · exact h1 ▸ List.mem_cons_self a rs
      · exact List.mem_cons_of_mem a (ih h1)

theorem pairwise_ne_dedupKeepLast {α κ : Type} [DecidableEq κ]
    (key : α → κ) :
    ∀ l : List α, (dedupKeepLast key l).Pairwise (fun x y => key x ≠ key y) := by
  intro l
  induction l with
  | nil => simp [dedupKeepLast]
  | cons a rs ih =>
    rw [dedupKeepLast]
    by_cases hany : rs.any (fun x => key x = key a) = true
    · rw [if_pos hany]; exact ih
    · rw [if_neg hany]
      refine List.Pairwise.cons ?_ ih
      intro y hy
      have hy' : y ∈ rs := mem_dedupKeepLast hy
      simp only [Bool.not_eq_true, List.any_eq_false, decide_eq_true_eq] at hany
      exact fun hk => hany y hy' (hk ▸ rfl)

theorem dedupKeepLast_append_mem {α κ : Type} [DecidableEq κ]
    (key : α → κ) :
    ∀ (l₁ l₂ : List α) (r : α), r ∈ dedupKeepLast key (l₁ ++ l₂) →
      (∃ x ∈ l₂, key x = key r) → r ∈ l₂ := by
  intro l₁
  induction l₁ with
  | nil =>
    intro l₂ r h _
    simpa using mem_dedupKeepLast h
  | cons a l₁ ih =>
    intro l₂ r h hex
    rw [List.cons_append, dedupKeepLast] at h
    by_cases hany : (l₁ ++ l₂).any (fun x => key x = key a) = true
    · rw [if_pos hany] at h
      exact ih l₂ r h hex
    · rw [if_neg hany] at h
      rcases List.mem_cons.mp h with h1 | h1
      · simp only [Bool.not_eq_true, List.any_eq_false, decide_eq_true_eq] at hany
        obtain ⟨x, hx, hkx⟩ := hex
        have := hany x (List.mem_append_right l₁ hx)
        rw [h1] at hkx
        exact absurd hkx this
      · exact ih l₂ r h1 hex

-- ============================================================
-- Incremental merges (collect_intraday.py, collect_macro.py)
-- ============================================================

/-- The de-duplication key of intraday tick data:
`subset=["time", "price", "volume"]`. -/
def tickKey (r : Row) : Option Value × Option Value × Option Value :=
  (r.lookup "time", r.lookup "price", r.lookup "volume")

/-- The de-duplication key of a date-keyed table: the date column's cell. -/
def colKey (c : String) (r : Row) : Option Value :=
  r.lookup c

/-- Lexicographic order on the full composite tick key
(time, then price, then volume). -/
def tickKeyLe (r₁ r₂ : Row) : Bool :=
  let k₁ := tickKey r₁
  let k₂ := tickKey r₂
  optValLt k₁.1 k₂.1 ||
    (k₁.1 = k₂.1 &&
      (optValLt k₁.2.1 k₂.2.1 ||
        (k₁.2.1 = k₂.2.1 && optValLe k₁.2.2 k₂.2.2)))

/-- The incremental merge of collect_intraday (lines 183–195):
`pd.concat([existing, df])`, `drop_duplicates(["time","price","volume"],
keep="last")`, `sort_values("time")`. -/
def mergeIntraday (existing newDf : DataFrame) : DataFrame :=
  let cat := concatDF [existing, newDf]
  { columns := cat.columns
  , rows := sortByLe (rowLeBy "time") (dedupKeepLast tickKey cat.rows) }

/-- The merge step of `_save_incremental` (collect_macro.py, lines 88–91):
`pd.concat([existing, df])`, `drop_duplicates([date_col], keep="last")`,
`sort_values(date_col)`. -/
def mergeByDate (dateCol : String) (existing newDf : DataFrame) : DataFrame :=
  let cat := concatDF [existing, newDf]
  { columns := cat.columns
  , rows := sortByLe (rowLeBy dateCol) (dedupKeepLast (colKey dateCol) cat.rows) }

/-- The date-column candidates `_save_incremental` scans for. -/
def DATE_COL_CANDIDATES : List String :=
  ["date", "time", "Date", "Time", "period", "year"]

/-- `_save_incremental`'s date-column pick: first candidate present among
the new frame's columns. -/
def pickDateCol (df : DataFrame) : Option String :=
  DATE_COL_CANDIDATES.find? (fun c => df.columns.contains c)

/-- `_save_incremental(df, csv_path, method_name)`: merge with the existing
file when it exists and a date column was found, else plain overwrite. -/
def save_incremental (fs : FS) (df : DataFrame) (path : String)
    (now : Nat) : FS :=
  match fs.lookup path, pickDateCol df with
  | some fi, some c => setFile fs path ⟨mergeByDate c fi.content df, now⟩
  | _, _ => setFile fs path ⟨df, now⟩

/-- The row list of a two-frame concat. -/
theorem concatDF_two_rows (d₁ d₂ : DataFrame) :
    (concatDF [d₁, d₂]).rows = d₁.rows ++ d₂.rows := by
  simp [concatDF]

/-- Shared core of the two incremental merges: distinct keys, rows whose
key occurs in the second operand come from the second operand, and the
result is sorted by the `c` column. -/
theorem merge_core_invariants {κ : Type} [DecidableEq κ] (key : Row → κ)
    (c : String) (l₁ l₂ : List Row) :
    (sortByLe (rowLeBy c) (dedupKeepLast key (l₁ ++ l₂))).Pairwise
        (fun a b => key a ≠ key b) ∧
    (∀ r ∈ sortByLe (rowLeBy c) (dedupKeepLast key (l₁ ++ l₂)),
      (∃ x ∈ l₂, key x = key r) → r ∈ l₂) ∧
    (sortByLe (rowLeBy c) (dedupKeepLast key (l₁ ++ l₂))).Pairwise
        (fun a b => rowLeBy c a b = true) := by
  have hperm := sortByLe_perm (rowLeBy c) (dedupKeepLast key (l₁ ++ l₂))
  refine ⟨?_, ?_, ?_⟩
  · exact (hperm.pairwise_iff (fun h hk => h hk.symm)).mpr
      (pairwise_ne_dedupKeepLast key _)
  · intro r hr hex
    exact dedupKeepLast_append_mem key l₁ l₂ r (hperm.mem_iff.mp hr) hex
  · exact pairwise_sortByLe (rowLeBy c)
      (fun x y z => rowLeBy_trans c) (rowLeBy_total c) _

-- ============================================================
-- C4 — incremental merge invariants
-- ============================================================

/-- **C4, counterexample.** The claim states the merged intraday table is
sorted ascending by its de-duplication key (time, price, volume).  The code
sorts by `time` only: merging an existing row (time 1, price 5, volume 1)
with a new row (time 1, price 3, volume 1) keeps both rows (distinct
composite keys) in concat order, which is not ascending in the composite
key. -/
theorem c4_counterexample :
    (mergeIntraday
        ⟨["time", "price", "volume"],
          [[("time", Value.int 1), ("price", Value.int 5), ("volume", Value.int 1)]]⟩
        ⟨["time", "price", "volume"],
          [[("time", Value.int 1), ("price", Value.int 3), ("volume", Value.int 1)]]⟩).rows
      = [[("time", Value.int 1), ("price", Value.int 5), ("volume", Value.int 1)],
         [("time", Value.int 1), ("price", Value.int 3), ("volume", Value.int 1)]] ∧
    ¬ (mergeIntraday
        ⟨["time", "price", "volume"],
          [[("time", Value.int 1), ("price", Value.int 5), ("volume", Value.int 1)]]⟩
        ⟨["time", "price", "volume"],
          [[("time", Value.int 1), ("price", Value.int 3), ("volume", Value.int 1)]]⟩).rows.Pairwise
        (fun a b => tickKeyLe a b = true) := by
  constructor
  · decide
  · decide

/-- **C4, amended.** After either incremental merge (intraday on
(time, price, volume); macro/insights on a date column): at most one row
exists per de-duplication key, any row whose key also occurs in the newly
fetched rows is one of the newly fetched rows (newest retained), and the
result is sorted ascending by the table's time/date column — for intraday
by `time` only, not by the full composite key. -/
theorem c4_merge_invariants (existing newDf : DataFrame) (dateCol : String) :
    ((mergeIntraday existing newDf).rows.Pairwise
        (fun a b => tickKey a ≠ tickKey b) ∧
     (∀ r ∈ (mergeIntraday existing newDf).rows,
        (∃ x ∈ newDf.rows, tickKey x = tickKey r) → r ∈ newDf.rows) ∧
     (mergeIntraday existing newDf).rows.Pairwise
        (fun a b => rowLeBy "time" a b = true)) ∧
    ((mergeByDate dateCol existing newDf).rows.Pairwise
        (fun a b => colKey dateCol a ≠ colKey dateCol b) ∧
     (∀ r ∈ (mergeByDate dateCol existing newDf).rows,
        (∃ x ∈ newDf.rows, colKey dateCol x = colKey dateCol r) →
          r ∈ newDf.rows) ∧
     (mergeByDate dateCol existing newDf).rows.Pairwise
        (fun a b => rowLeBy dateCol a b = true)) := by
  constructor
  · have h := merge_core_invariants tickKey "time" existing.rows newDf.rows
    simpa [mergeIntraday, concatDF_two_rows] using h
  · have h := merge_core_invariants (colKey dateCol) dateCol
        existing.rows newDf.rows
    simpa [mergeByDate, concatDF_two_rows] using h

/-- Witness for `c4_merge_invariants`: merging a date-keyed table with an
overlapping key keeps the newly fetched row. -/
theorem c4_witness :
    [("time", Value.int 1), ("x", Value.int 20)] ∈
      (DataFrame.mk ["time", "x"]
        [[("time", Value.int 1), ("x", Value.int 20)],
         [("time", Value.int 2), ("x", Value.int 30)]]).rows := by
  have h := (c4_merge_invariants
      ⟨["time", "x"], [[("time", Value.int 1), ("x", Value.int 10)]]⟩
      ⟨["time", "x"],
        [[("time", Value.int 1), ("x", Value.int 20)],
         [("time", Value.int 2), ("x", Value.int 30)]]⟩ "time").2.2.1
  exact h [("time", Value.int 1), ("x", Value.int 20)] (by decide)
    ⟨[("time", Value.int 1), ("x", Value.int 20)], by decide, rfl⟩

-- ============================================================
-- fetch_intraday_one and collect_intraday (collect_intraday.py)
-- ============================================================

/-- Column assignment `combined["symbol"] = symbol`: overwrite the column
when present, else append it. -/
def setSymbolCol (df : DataFrame) (sym : String) : DataFrame :=
  if df.columns.contains "symbol" then
    { columns := df.columns
    , rows := df.rows.map (fun r => r.map (fun p =>
        if p.1 = "symbol" then ("symbol", Value.str sym) else p)) }
  else tagSymbol df sym

/-- The paging loop of `fetch_intraday_one`: pages 1..MAX_PAGES (= 20,
modelled as fuel); a raise aborts the loop with an error, a `None` or
empty page stops it, a page shorter than 100 rows is the last one. -/
def fetchPagesAux (pages : Nat → FetchOutcome) :
    Nat → Nat → List DataFrame → Except Unit (List DataFrame)
  | _, 0, acc => .ok acc
  | page, fuel + 1, acc =>
    match pages page with
    | .raise => .error ()
    | .noneResult => .ok acc
    | .ok df =>
      if df.isEmptyDF then .ok acc
      else if df.rows.length < 100 then .ok (acc ++ [df])
      else fetchPagesAux pages (page + 1) fuel (acc ++ [df])

/-- The try-block of `fetch_intraday_one` as a fallible computation:
fetch all pages, and if any data came back, concat, set the symbol
column, drop duplicate (time, price, volume) keys keeping the first,
and sort by time. -/
def fetch_intraday_one_core (pages : Nat → FetchOutcome)
    (symbol : String) : Except Unit DataFrame :=
  match fetchPagesAux pages 1 20 [] with
  | .error e => .error e
  | .ok allPages =>
    if allPages.isEmpty then .ok ⟨[], []⟩
    else
      let combined := setSymbolCol (concatDF allPages) symbol
      .ok { columns := combined.columns
          , rows := sortByLe (rowLeBy "time")
              (dedupKeepFirst tickKey combined.rows) }

/-- `fetch_intraday_one`: the whole body is wrapped in try/except
returning `pd.DataFrame()`, so the function always returns a frame and
never propagates an exception. -/
def fetch_intraday_one (pages : Nat → FetchOutcome)
    (symbol : String) : DataFrame :=
  match fetch_intraday_one_core pages symbol with
  | .error _ => ⟨[], []⟩
  | .ok df => df

/-- Mutable state of collect_intraday's drain loop. -/
structure IntradayState where
  fs : FS
  success : Nat
  errors : Nat
deriving DecidableEq, Repr

/-- One iteration of collect_intraday's drain loop (lines 171–200): a
raise counts an error (except branch); a `None` or empty result counts an
error (else branch); a non-empty table is merged with the existing
per-symbol file when present and written, counting a success. -/
def intradayStep (now : Nat) (fetch : String → FetchOutcome)
    (st : IntradayState) (sym : String) : IntradayState :=
  match fetch sym with
  | .raise => { st with errors := st.errors + 1 }
  | .noneResult => { st with errors := st.errors + 1 }
  | .ok df =>
    if df.isEmptyDF then { st with errors := st.errors + 1 }
    else
      let path := sym ++ ".csv"
      let merged :=
        match st.fs.lookup path with
        | none => df
        | some fi => mergeIntraday fi.content df
      { fs := setFile st.fs path ⟨merged, now⟩
      , success := st.success + 1, errors := st.errors }

/-- Drain all intraday futures in completion order. -/
def drainIntraday (now : Nat) (fetch : String → FetchOutcome)
    (st : IntradayState) : List String → IntradayState
  | [] => st
  | s :: rest => drainIntraday now fetch (intradayStep now fetch st s) rest

theorem drainIntraday_errors (now : Nat) (fetch : String → FetchOutcome) :
    ∀ (order : List String) (st : IntradayState),
      (drainIntraday now fetch st order).errors
        = st.errors + (order.filter (fun s =>
            (fetch s).isRaise || (fetch s).isEmptyResult)).length := by
  intro order
  induction order with
  | nil => intro st; simp [drainIntraday]
  | cons s rest ih =>
    intro st
    simp only [drainIntraday, List.filter_cons]
    rw [ih]
    cases h : fetch s with
    | ok df =>
      simp only [intradayStep, h, FetchOutcome.isRaise,
        FetchOutcome.isEmptyResult]
      cases hdf : df.isEmptyDF <;> simp [hdf] <;> omega
    | noneResult =>
      simp [intradayStep, h, FetchOutcome.isRaise,
        FetchOutcome.isEmptyResult]
      omega
    | raise =>
      simp [intradayStep, h, FetchOutcome.isRaise,
        FetchOutcome.isEmptyResult]
      omega

theorem drainIntraday_success (now : Nat) (fetch : String → FetchOutcome) :
    ∀ (order : List String) (st : IntradayState),
      (drainIntraday now fetch st order).success
        = st.success + (order.filter (fun s =>
            !((fetch s).isRaise || (fetch s).isEmptyResult))).length := by
  intro order
  induction order with
  | nil => intro st; simp [drainIntraday]
  | cons s rest ih =>
    intro st
    simp only [drainIntraday, List.filter_cons]
    rw [ih]
    cases h : fetch s with
    | ok df =>
      simp only [intradayStep, h, FetchOutcome.isRaise,
        FetchOutcome.isEmptyResult]
      cases hdf : df.isEmptyDF <;> simp [hdf] <;> omega
    | noneResult =>
      simp [intradayStep, h, FetchOutcome.isRaise,
        FetchOutcome.isEmptyResult]
    | raise =>
      simp [intradayStep, h, FetchOutcome.isRaise,
        FetchOutcome.isEmptyResult]

-- ============================================================
-- C10 — totality of fetch_intraday_one; error branch in collect_intraday
-- ============================================================

/-- **C10.** `fetch_intraday_one` is total: whenever its try-block fails,
the function returns the empty frame instead of propagating.  Hence in
collect_intraday's drain loop, run on `fetch_intraday_one` results, the
exception branch never fires: `errors` is exactly the number of symbols
whose frame came back empty (a vendor failure and a genuinely empty
result are indistinguishable), and `success` the number of non-empty
frames. -/
theorem c10_total_fetch_and_error_branch
    (pages : String → Nat → FetchOutcome) (sym0 : String)
    (now : Nat) (fs : FS) (order : List String) :
    (fetch_intraday_one_core (pages sym0) sym0 = Except.error () →
      fetch_intraday_one (pages sym0) sym0 = ⟨[], []⟩) ∧
    (drainIntraday now (fun s => .ok (fetch_intraday_one (pages s) s))
        ⟨fs, 0, 0⟩ order).errors
      = (order.filter (fun s =>
          (fetch_intraday_one (pages s) s).isEmptyDF)).length ∧
    (drainIntraday now (fun s => .ok (fetch_intraday_one (pages s) s))
        ⟨fs, 0, 0⟩ order).success
      = (order.filter (fun s =>
          !(fetch_intraday_one (pages s) s).isEmptyDF)).length := by
  refine ⟨?_, ?_, ?_⟩
  · intro h
    rw [fetch_intraday_one, h]
  · rw [drainIntraday_errors]
    simp [FetchOutcome.isRaise, FetchOutcome.isEmptyResult]
  · rw [drainIntraday_success]
    simp [FetchOutcome.isRaise, FetchOutcome.isEmptyResult]

/-- Witness for `c10_total_fetch_and_error_branch`: a vendor that raises
on the first page yields the empty frame, and the drain counts it through
the empty-result branch. -/
theorem c10_witness :
    fetch_intraday_one_core (fun _ => FetchOutcome.raise) "VCB"
      = Except.error () ∧
    fetch_intraday_one (fun _ => FetchOutcome.raise) "VCB" = ⟨[], []⟩ ∧
    (drainIntraday 0
        (fun s => .ok (fetch_intraday_one
          ((fun (_ : String) (_ : Nat) => FetchOutcome.raise) s) s))
        ⟨[], 0, 0⟩ ["VCB"]).errors = 1 :=
  ⟨rfl,
   (c10_total_fetch_and_error_branch (fun _ _ => FetchOutcome.raise) "VCB"
      0 [] ["VCB"]).1 rfl,
   by
    rw [(c10_total_fetch_and_error_branch (fun _ _ => FetchOutcome.raise)
        "VCB" 0 [] ["VCB"]).2.1]
    decide⟩

end VnstockCollect
